import Mathlib

/-!
Verification development for the TransitClustering repository.

The embedding below follows the four analysis scripts:
  src/bus_by_census_tract.py    (spatial join, per-tract counts, Poisson significance test)
  src/service_to_stops.py       (weighted service aggregation and the same test)
  src/density_clustering.py     (DBSCAN / HDBSCAN summaries and frame updates)
  src/socioeconomic_analysis.py (per-tract service GeoDataFrame construction)

External collaborators (pyproj reprojection, the shapely intersects
predicate, the sklearn label arrays, scipy.stats.poisson.pmf) are passed in
as function parameters; everything the scripts themselves compute is
embedded as executable definitions over exact rationals.
-/

/-- A planar coordinate pair: one shapely point geometry after projection. -/
structure GeoPoint where
  x : ℚ
  y : ℚ
deriving DecidableEq

/-- One row of the bus-stop point GeoDataFrame: the stop geometry together
with the stop_count column that get_data merges in from the schedule
(scheduled visits at the stop); bus_by_census_tract uses only the geometry. -/
structure PointRow where
  pt : GeoPoint
  stop_count : ℕ
deriving DecidableEq

/-- One row of the census-tract GeoDataFrame: the geoid10 key, the polygon
value (an identifier resolved by the external geometry engine), and
geometry.area in projected square meters. geoid10 is an eleven-digit code;
it is modelled as a natural number (lexicographic order on equal-length
digit strings agrees with numeric order). -/
structure Region where
  geoid10 : ℕ
  geom : ℕ
  area_m2 : ℚ
deriving DecidableEq

/-- A GeoDataFrame of points: its crs tag and its rows. -/
structure PointFrame where
  crs : ℕ
  rows : List PointRow
deriving DecidableEq

/-- A GeoDataFrame of regions: its crs tag and its rows. -/
structure RegionFrame where
  crs : ℕ
  rows : List Region
deriving DecidableEq

/-- geopandas GeoDataFrame.to_crs on a point frame: reproject every
geometry to the target crs. The coordinate transformation itself is pyproj,
external to the repository, so it is a parameter reproj taking source and
target crs tags; to_crs to the frame's own crs is the identity projection. -/
def to_crs (reproj : ℕ → ℕ → GeoPoint → GeoPoint) (df : PointFrame) (target : ℕ) :
    PointFrame :=
  if df.crs = target then df
  else { crs := target,
         rows := df.rows.map fun p => { p with pt := reproj df.crs target p.pt } }

/-- gpd.sjoin(bus, census, how=inner, op=intersects): one output row per
(point, region) pair whose geometries intersect, keeping the left row and
the right key geoid10. The intersects test is the external shapely
predicate, passed in as contains. A point matching no region is dropped. -/
def sjoin_inner (contains : ℕ → GeoPoint → Bool) (bus : List PointRow)
    (census : List Region) : List (PointRow × ℕ) :=
  bus.flatMap fun p =>
    (census.filter fun r => contains r.geom p.pt).map fun r => (p, r.geoid10)

/-- gpd.sjoin(bus, census, how=left, op=intersects) (service_to_stops.py
line 44): every left row is kept; a row matching no region appears once
with a null geoid10, a row matching k regions appears k times. -/
def sjoin_left (contains : ℕ → GeoPoint → Bool) (bus : List PointRow)
    (census : List Region) : List (PointRow × Option ℕ) :=
  bus.flatMap fun p =>
    let m := (census.filter fun r => contains r.geom p.pt).map fun r =>
      (p, some r.geoid10)
    if m.isEmpty then [(p, none)] else m

/-- pandas groupby silently drops rows whose key is NaN, so grouping the
left join over geoid10 aggregates exactly the rows that matched a region. -/
def drop_null (rows : List (PointRow × Option ℕ)) : List (PointRow × ℕ) :=
  rows.filterMap fun r => r.2.map fun g => (r.1, g)

/-- Insert a key into a sorted key list, keeping it sorted. -/
def insertKey (a : ℕ) : List ℕ → List ℕ
  | [] => [a]
  | b :: t => if a ≤ b then a :: b :: t else b :: insertKey a t

/-- Sort a key list ascending (insertion sort). -/
def sortKeys : List ℕ → List ℕ
  | [] => []
  | a :: t => insertKey a (sortKeys t)

/-- The index of a pandas groupby over the geoid10 column of a join result:
the distinct key values in ascending order (pandas groupby sorts its group
keys by default). -/
def groupKeys (rows : List (PointRow × ℕ)) : List ℕ :=
  sortKeys (rows.map Prod.snd).dedup

/-- groupby(geoid10).size() for one key: the number of join rows carrying
that key. -/
def group_size (rows : List (PointRow × ℕ)) (g : ℕ) : ℕ :=
  (rows.filter fun r => r.2 == g).length

/-- groupby(geoid10)[stop_count].sum() for one key: the summed stop_count
of the join rows carrying that key. -/
def group_weight (rows : List (PointRow × ℕ)) (g : ℕ) : ℕ :=
  ((rows.filter fun r => r.2 == g).map fun r => r.1.stop_count).sum

/-- bus_census.groupby(geoid10).size().reset_index(name=count)
(bus_by_census_tract.py line 58): rows of (geoid10, count) over the sorted
distinct keys. -/
def point_size (rows : List (PointRow × ℕ)) : List (ℕ × ℕ) :=
  (groupKeys rows).map fun g => (g, group_size rows g)

/-- stops_census.groupby(geoid10)[stop_count].sum().reset_index(name=count)
(service_to_stops.py lines 46-48 and socioeconomic_analysis.py lines
45-47): rows of (geoid10, summed stop_count) over the sorted distinct
keys. -/
def point_sum (rows : List (PointRow × ℕ)) : List (ℕ × ℕ) :=
  (groupKeys rows).map fun g => (g, group_weight rows g)

/-- census_df.merge(point_sum, how=left, on=geoid10).fillna(0)
(bus_by_census_tract.py line 60, service_to_stops.py line 50): every
census row is kept in order; a row whose geoid10 matches a groupby key
receives that count, and a row with no match gets NaN, filled to 0. The
groupby keys are distinct, so each left row matches at most one right
row. -/
def merge_counts (census : List Region) (ps : List (ℕ × ℕ)) :
    List (Region × ℕ) :=
  census.map fun c => (c, ((ps.find? fun r => r.1 == c.geoid10).map Prod.snd).getD 0)

/-- The labels of the prob_map column written by np.select
(bus_by_census_tract.py lines 97-101, service_to_stops.py lines 128-132). -/
inductive Classification
  | moreThanExpected
  | lessThanExpected
  | nonSignificant
deriving DecidableEq

/-- One row of the final per-tract table produced by the significance step:
geoid10, area in km2, observed count, expected count, Poisson point
probability and classification. -/
structure Aggregate where
  geoid10 : ℕ
  areakm2 : ℚ
  count : ℕ
  exppts : ℚ
  ptprob : ℚ
  prob_map : Classification
deriving DecidableEq

/-- geometry.area / 10 ** 6 (bus_by_census_tract.py line 63,
service_to_stops.py line 99): projected area converted to km2. -/
def areakm2 (c : Region) : ℚ := c.area_m2 / 10 ^ 6

/-- Sum of the count column over the merged per-tract table. -/
def total_count (rows : List (Region × ℕ)) : ℚ :=
  ((rows.map fun r => r.2).sum : ℕ)

/-- Sum of the km2 area column over the merged per-tract table. -/
def total_area (rows : List (Region × ℕ)) : ℚ :=
  (rows.map fun r => areakm2 r.1).sum

/-- avg_intensity = count.sum() / areakm2.sum() (bus_by_census_tract.py
line 66, service_to_stops.py line 102). -/
def avg_intensity (rows : List (Region × ℕ)) : ℚ :=
  total_count rows / total_area rows

/-- The np.select block (bus_by_census_tract.py lines 90-101): first
condition count > exppts and ptprob < alpha, second condition
count < exppts and ptprob < alpha, default Non-significant. -/
def classify (count : ℕ) (exppts ptprob alpha : ℚ) : Classification :=
  if exppts < (count : ℚ) ∧ ptprob < alpha then Classification.moreThanExpected
  else if (count : ℚ) < exppts ∧ ptprob < alpha then Classification.lessThanExpected
  else Classification.nonSignificant

/-- The significance step shared by bus_by_census_tract.py lines 63-101 and
service_to_stops.py lines 99-132, stripped of plotting: km2 areas, global
intensity, expected count per tract, the Poisson point probability of the
observed count (the external scipy.stats.poisson.pmf, a parameter pmf whose
float outputs are exact rationals), and the classification at threshold
alpha (0.05 in bus_by_census_tract, 0.01 in plot_service_density). -/
def assess (pmf : ℕ → ℚ → ℚ) (alpha : ℚ) (rows : List (Region × ℕ)) :
    List Aggregate :=
  let lam := avg_intensity rows
  rows.map fun r =>
    let a := areakm2 r.1
    let e := lam * a
    let p := pmf r.2 e
    { geoid10 := r.1.geoid10, areakm2 := a, count := r.2, exppts := e,
      ptprob := p, prob_map := classify r.2 e p alpha }

/-- The join step of get_bus_density_by_census_tract
(bus_by_census_tract.py lines 55-56): the bus frame is first reprojected to
the census crs with to_crs, then inner spatial joined. The code performs no
crs comparison and no emptiness check. -/
def bus_census_join (reproj : ℕ → ℕ → GeoPoint → GeoPoint)
    (contains : ℕ → GeoPoint → Bool) (bus : PointFrame) (census : RegionFrame) :
    List (PointRow × ℕ) :=
  sjoin_inner contains (to_crs reproj bus census.crs).rows census.rows

/-- get_bus_density_by_census_tract (bus_by_census_tract.py lines 55-101)
without the plotting calls: reproject, inner join, count stops per tract,
left-merge the counts into the census table filling missing counts with 0,
then run the significance step at alpha = 0.05. -/
def get_bus_density_by_census_tract (reproj : ℕ → ℕ → GeoPoint → GeoPoint)
    (contains : ℕ → GeoPoint → Bool) (pmf : ℕ → ℚ → ℚ)
    (bus : PointFrame) (census : RegionFrame) : List Aggregate :=
  assess pmf (5 / 100)
    (merge_counts census.rows (point_size (bus_census_join reproj contains bus census)))

/-- The aggregation core of get_data (service_to_stops.py lines 44-50):
left spatial join, scheduled-service sum per tract, left-merge into the
census table filling missing counts with 0. -/
def get_data_counts (contains : ℕ → GeoPoint → Bool) (bus : List PointRow)
    (census : List Region) : List (Region × ℕ) :=
  merge_counts census (point_sum (drop_null (sjoin_left contains bus census)))

/-- The per-tract service GeoDataFrame built by plot_nuanced_service_densities
(service_to_stops.py lines 176-183) and get_census_bus_data
(socioeconomic_analysis.py lines 42-51): inner join, per-tract stop_count
sums (rows in sorted geoid10 order under a fresh 0..k-1 index), then
gpd.GeoDataFrame(point_sum_df, geometry=gpd.GeoSeries(census geometry)).
Pandas aligns the geometry series to the fresh index positionally, so row i
of the groupby result receives the geometry of census row i. Output rows:
(geoid10 carrying the count, count, geometry). -/
def point_sum_gdf (contains : ℕ → GeoPoint → Bool) (bus : List PointRow)
    (census : List Region) : List (ℕ × ℕ × ℕ) :=
  List.zipWith (fun s r => (s.1, s.2, r.geom))
    (point_sum (sjoin_inner contains bus census)) census

/-- The estimated cluster count printed by dbscan (density_clustering.py
lines 28-31) over the label array returned by sklearn DBSCAN (noise label
-1): len(set(labels)) minus one when the noise label is present. The source
counts over the labels converted to strings; int-to-string conversion is
injective, so the distinct-label count is the same over the integer labels
used here. -/
def dbscan_n_clusters (labels : List ℤ) : ℕ :=
  labels.toFinset.card - (if (-1 : ℤ) ∈ labels then 1 else 0)

/-- The estimated noise-point count printed by dbscan (line 34): the number
of labels equal to the noise label. -/
def dbscan_n_noise (labels : List ℤ) : ℕ := labels.count (-1)

/-- The cluster count printed by hdbscan (lines 70-72): the identical
computation over the HDBSCAN label array. -/
def hdbscan_n_clusters (labels : List ℤ) : ℕ :=
  labels.toFinset.card - (if (-1 : ℤ) ∈ labels then 1 else 0)

/-- The noise count printed by hdbscan (line 74). -/
def hdbscan_n_noise (labels : List ℤ) : ℕ := labels.count (-1)

/-- The bus point frame as density_clustering.py sees it: the point
coordinates plus the db_cluster and hdb_cluster columns, absent (none)
until a clustering function writes them. -/
structure ClusterFrame where
  coords : List GeoPoint
  db_cluster : Option (List ℤ)
  hdb_cluster : Option (List ℤ)
deriving DecidableEq

/-- dbscan (density_clustering.py lines 21-46) as a state transformer on
its input frame: the sklearn label array is external and passed in; line 39
writes the db_cluster column into the input frame in place. Returns the
post-call state of the input frame together with the printed cluster and
noise counts. -/
def dbscan_run (labels : List ℤ) (df : ClusterFrame) : ClusterFrame × ℕ × ℕ :=
  ({ df with db_cluster := some labels },
   dbscan_n_clusters labels, dbscan_n_noise labels)

/-- hdbscan (lines 63-93) as a state transformer: line 79 writes the
hdb_cluster column into the input frame in place. -/
def hdbscan_run (labels : List ℤ) (df : ClusterFrame) : ClusterFrame × ℕ × ℕ :=
  ({ df with hdb_cluster := some labels },
   hdbscan_n_clusters labels, hdbscan_n_noise labels)

/-- The prob_census_df frame passed to plot_service_density: the merged
(region, count) rows plus the derived columns the function writes (area,
exppts, ptprob, prob_map, modelled together as the aggregate list), absent
until then. -/
structure ServiceFrame where
  rows : List (Region × ℕ)
  derived : Option (List Aggregate)
deriving DecidableEq

/-- plot_service_density (service_to_stops.py lines 87-157) as a state
transformer on its input frame: lines 99, 106, 115 and 128 write the
derived columns into the input frame in place, at alpha = 0.01. -/
def plot_service_density_run (pmf : ℕ → ℚ → ℚ) (f : ServiceFrame) :
    ServiceFrame :=
  { f with derived := some (assess pmf (1 / 100) f.rows) }

/-- scipy.stats.poisson.pmf, the score called at bus_by_census_tract.py
line 86 and service_to_stops.py line 115: by its documentation,
poisson.pmf(k, mu) = exp(-mu) * mu ** k / k!, the probability of observing
exactly k events. -/
noncomputable def scipy_poisson_pmf (k : ℕ) (mu : ℝ) : ℝ :=
  Real.exp (-mu) * mu ^ k / (Nat.factorial k)

/-- A constant-zero stand-in for the external scipy pmf, used only in the
concrete evaluations below (any rational-valued score function works
there). -/
def pmf0 : ℕ → ℚ → ℚ := fun _ _ => 0

/-- One-region concrete merged table: geoid 7, area 2 km2, observed
count 3. -/
def exRows1 : List (Region × ℕ) :=
  [({ geoid10 := 7, geom := 0, area_m2 := 2 * 10 ^ 6 }, 3)]

/-- The single aggregate row assess produces on exRows1 with pmf0 at
alpha = 0.05: intensity 3/2, expected count 3 = observed count, hence
Non-significant. -/
def exAgg1 : Aggregate :=
  { geoid10 := 7, areakm2 := 2, count := 3, exppts := 3, ptprob := 0,
    prob_map := Classification.nonSignificant }

theorem insertKey_perm (a : ℕ) (l : List ℕ) : List.Perm (insertKey a l) (a :: l) := by
  induction l with
  | nil => exact List.Perm.refl _
  | cons b t ih =>
    unfold insertKey
    split
    · exact List.Perm.refl _
    · exact (List.Perm.cons b ih).trans (List.Perm.swap a b t)

theorem sortKeys_perm (l : List ℕ) : List.Perm (sortKeys l) l := by
  induction l with
  | nil => exact List.Perm.refl _
  | cons a t ih => exact (insertKey_perm a (sortKeys t)).trans (List.Perm.cons a ih)

theorem sorted_insertKey {a : ℕ} {l : List ℕ} (h : l.Sorted (· ≤ ·)) :
    (insertKey a l).Sorted (· ≤ ·) := by
  induction l with
  | nil => simp [insertKey]
  | cons b t ih =>
    rw [List.sorted_cons] at h
    by_cases hab : a ≤ b
    · rw [insertKey, if_pos hab, List.sorted_cons]
      exact ⟨fun x hx => by
          rcases List.mem_cons.mp hx with rfl | hx
          · exact hab
          · exact hab.trans (h.1 x hx),
        List.sorted_cons.mpr h⟩
    · rw [insertKey, if_neg hab, List.sorted_cons]
      refine ⟨fun x hx => ?_, ih h.2⟩
      rcases List.mem_cons.mp ((insertKey_perm a t).mem_iff.mp hx) with rfl | hx2
      · exact le_of_lt (lt_of_not_le hab)
      · exact h.1 x hx2

theorem sorted_sortKeys (l : List ℕ) : (sortKeys l).Sorted (· ≤ ·) := by
  induction l with
  | nil => simp [sortKeys]
  | cons a t ih => exact sorted_insertKey ih

theorem mem_groupKeys {rows : List (PointRow × ℕ)} {g : ℕ} :
    g ∈ groupKeys rows ↔ g ∈ rows.map Prod.snd := by
  unfold groupKeys
  rw [(sortKeys_perm _).mem_iff, List.mem_dedup]

theorem nodup_groupKeys (rows : List (PointRow × ℕ)) : (groupKeys rows).Nodup :=
  (sortKeys_perm _).nodup_iff.mpr (List.nodup_dedup _)

theorem sorted_groupKeys (rows : List (PointRow × ℕ)) :
    (groupKeys rows).Sorted (· ≤ ·) :=
  sorted_sortKeys _

theorem find?_groupby_none (f : List (PointRow × ℕ) → ℕ → ℕ)
    {rows : List (PointRow × ℕ)} {g : ℕ} (h : g ∉ rows.map Prod.snd) :
    (((groupKeys rows).map fun k => (k, f rows k)).find? fun r => r.1 == g) = none := by
  rw [List.find?_eq_none]
  intro x hx
  rw [List.mem_map] at hx
  obtain ⟨k, hk, rfl⟩ := hx
  simp only [beq_iff_eq]
  rintro rfl
  exact h (mem_groupKeys.mp hk)

theorem drop_null_sjoin_left (contains : ℕ → GeoPoint → Bool)
    (bus : List PointRow) (census : List Region) :
    drop_null (sjoin_left contains bus census) = sjoin_inner contains bus census := by
  induction bus with
  | nil => rfl
  | cons p t ih =>
    have step : sjoin_left contains (p :: t) census =
        (if ((census.filter fun r => contains r.geom p.pt).map fun r =>
              (p, some r.geoid10)).isEmpty
         then [(p, (none : Option ℕ))]
         else (census.filter fun r => contains r.geom p.pt).map fun r =>
              (p, some r.geoid10))
          ++ sjoin_left contains t census := by
      simp only [sjoin_left, List.flatMap_cons]
    have step2 : sjoin_inner contains (p :: t) census =
        ((census.filter fun r => contains r.geom p.pt).map fun r => (p, r.geoid10))
          ++ sjoin_inner contains t census := by
      simp only [sjoin_inner, List.flatMap_cons]
    rw [drop_null] at ih
    rw [step, step2, drop_null, List.filterMap_append, ih]
    congr 1
    cases hfil : census.filter fun r => contains r.geom p.pt with
    | nil => simp
    | cons q u =>
      simp only [List.map_cons, List.isEmpty_cons, Bool.false_eq_true, if_false,
        List.filterMap_cons, Option.map_some', List.filterMap_map]
      rw [show ((fun r : PointRow × Option ℕ => Option.map (fun g => (r.1, g)) r.2) ∘
            fun r : Region => (p, some r.geoid10))
          = some ∘ fun r : Region => (p, r.geoid10) from rfl,
        List.filterMap_eq_map]

theorem classify_iff (c : ℕ) (e p alpha : ℚ) :
    (classify c e p alpha = Classification.moreThanExpected ↔ e < (c : ℚ) ∧ p < alpha)
    ∧ (classify c e p alpha = Classification.lessThanExpected ↔ (c : ℚ) < e ∧ p < alpha)
    ∧ (classify c e p alpha = Classification.nonSignificant ↔
        ¬ (e < (c : ℚ) ∧ p < alpha) ∧ ¬ ((c : ℚ) < e ∧ p < alpha)) := by
  unfold classify
  split_ifs with h1 h2
  · exact ⟨⟨fun _ => h1, fun _ => rfl⟩,
      ⟨fun h => h.elim, fun h => absurd h.1 (lt_asymm h1.1)⟩,
      ⟨fun h => h.elim, fun h => absurd h1 h.1⟩⟩
  · exact ⟨⟨fun h => h.elim, fun h => absurd h h1⟩,
      ⟨fun _ => h2, fun _ => rfl⟩,
      ⟨fun h => h.elim, fun h => absurd h2 h.2⟩⟩
  · exact ⟨⟨fun h => h.elim, fun h => absurd h h1⟩,
      ⟨fun h => h.elim, fun h => absurd h h2⟩,
      ⟨fun _ => ⟨h1, h2⟩, fun _ => rfl⟩⟩

theorem mem_assess_elim {pmf : ℕ → ℚ → ℚ} {alpha : ℚ} {rows : List (Region × ℕ)}
    {r : Aggregate} (hr : r ∈ assess pmf alpha rows) :
    ∃ x ∈ rows, r =
      { geoid10 := x.1.geoid10, areakm2 := areakm2 x.1, count := x.2,
        exppts := avg_intensity rows * areakm2 x.1,
        ptprob := pmf x.2 (avg_intensity rows * areakm2 x.1),
        prob_map := classify x.2 (avg_intensity rows * areakm2 x.1)
          (pmf x.2 (avg_intensity rows * areakm2 x.1)) alpha } := by
  simp only [assess, List.mem_map] at hr
  obtain ⟨x, hx, hmk⟩ := hr
  exact ⟨x, hx, hmk.symm⟩

/-- C1: for every region aggregate produced by the significance step, the
classification is MoreThanExpected exactly when the observed count exceeds
the expected count and the point probability is below alpha,
LessThanExpected exactly when the observed count is below the expected
count and the point probability is below alpha, and NonSignificant
otherwise; in particular a region whose observed count equals its expected
count is NonSignificant regardless of the probability. -/
theorem classification_rule (pmf : ℕ → ℚ → ℚ) (alpha : ℚ)
    (rows : List (Region × ℕ)) (_h : 0 < total_area rows)
    (r : Aggregate) (hr : r ∈ assess pmf alpha rows) :
    (r.prob_map = Classification.moreThanExpected ↔
      r.exppts < (r.count : ℚ) ∧ r.ptprob < alpha)
    ∧ (r.prob_map = Classification.lessThanExpected ↔
      (r.count : ℚ) < r.exppts ∧ r.ptprob < alpha)
    ∧ (r.prob_map = Classification.nonSignificant ↔
      ¬ (r.exppts < (r.count : ℚ) ∧ r.ptprob < alpha)
      ∧ ¬ ((r.count : ℚ) < r.exppts ∧ r.ptprob < alpha))
    ∧ ((r.count : ℚ) = r.exppts → r.prob_map = Classification.nonSignificant) := by
  obtain ⟨x, hx, rfl⟩ := mem_assess_elim hr
  have hc := classify_iff x.2 (avg_intensity rows * areakm2 x.1)
    (pmf x.2 (avg_intensity rows * areakm2 x.1)) alpha
  exact ⟨hc.1, hc.2.1, hc.2.2, fun hce => hc.2.2.mpr
    ⟨fun hcon => absurd hcon.1 (not_lt.mpr hce.le),
     fun hcon => absurd hcon.1 (not_lt.mpr hce.symm.le)⟩⟩

/-- C1 witness: the theorem applied to the concrete one-region table
exRows1, whose single aggregate has observed count 3 equal to its expected
count and is classified NonSignificant even though its score 0 is below
alpha. -/
theorem classification_rule_witness :
    0 < total_area exRows1 ∧ exAgg1 ∈ assess pmf0 (5 / 100) exRows1 ∧
    ((exAgg1.prob_map = Classification.moreThanExpected ↔
      exAgg1.exppts < (exAgg1.count : ℚ) ∧ exAgg1.ptprob < 5 / 100)
    ∧ (exAgg1.prob_map = Classification.lessThanExpected ↔
      (exAgg1.count : ℚ) < exAgg1.exppts ∧ exAgg1.ptprob < 5 / 100)
    ∧ (exAgg1.prob_map = Classification.nonSignificant ↔
      ¬ (exAgg1.exppts < (exAgg1.count : ℚ) ∧ exAgg1.ptprob < 5 / 100)
      ∧ ¬ ((exAgg1.count : ℚ) < exAgg1.exppts ∧ exAgg1.ptprob < 5 / 100))
    ∧ ((exAgg1.count : ℚ) = exAgg1.exppts →
      exAgg1.prob_map = Classification.nonSignificant)) :=
  ⟨by norm_num [total_area, areakm2, exRows1],
   by norm_num [assess, avg_intensity, total_count, total_area, areakm2,
     exRows1, exAgg1, pmf0, classify],
   classification_rule pmf0 (5 / 100) exRows1
     (by norm_num [total_area, areakm2, exRows1]) exAgg1
     (by norm_num [assess, avg_intensity, total_count, total_area, areakm2,
       exRows1, exAgg1, pmf0, classify])⟩

/-- C2: with positive total area, the fitted intensity is the quotient of
the summed observed counts by the summed areas, every expected count is the
intensity times the region area, and the expected counts sum exactly to the
observed counts (exact rational arithmetic here; the source hits the same
identity up to float rounding). -/
theorem intensity_conservation (pmf : ℕ → ℚ → ℚ) (alpha : ℚ)
    (rows : List (Region × ℕ)) (h : 0 < total_area rows) :
    avg_intensity rows = total_count rows / total_area rows
    ∧ (assess pmf alpha rows).map Aggregate.exppts
      = rows.map (fun x => avg_intensity rows * areakm2 x.1)
    ∧ ((assess pmf alpha rows).map Aggregate.exppts).sum = total_count rows := by
  have hmap : (assess pmf alpha rows).map Aggregate.exppts
      = rows.map fun x => avg_intensity rows * areakm2 x.1 := by
    simp only [assess, List.map_map]
    rfl
  refine ⟨rfl, hmap, ?_⟩
  rw [hmap, List.sum_map_mul_left]
  show avg_intensity rows * total_area rows = total_count rows
  rw [avg_intensity, div_mul_cancel₀ _ (ne_of_gt h)]

/-- C2 witness: the theorem applied to the concrete one-region table
exRows1 (total area 2 km2, total count 3). -/
theorem intensity_conservation_witness :
    0 < total_area exRows1 ∧
    (avg_intensity exRows1 = total_count exRows1 / total_area exRows1
    ∧ (assess pmf0 (5 / 100) exRows1).map Aggregate.exppts
      = exRows1.map (fun x => avg_intensity exRows1 * areakm2 x.1)
    ∧ ((assess pmf0 (5 / 100) exRows1).map Aggregate.exppts).sum
      = total_count exRows1) :=
  ⟨by norm_num [total_area, areakm2, exRows1],
   intensity_conservation pmf0 (5 / 100) exRows1
     (by norm_num [total_area, areakm2, exRows1])⟩

/-- Two-region concrete merged table containing a zero-area region: geoid 1
with area 0 and observed count 3, geoid 2 with area 1 km2 and observed
count 5. -/
def exZeroRows : List (Region × ℕ) :=
  [({ geoid10 := 1, geom := 0, area_m2 := 0 }, 3),
   ({ geoid10 := 2, geom := 1, area_m2 := 10 ^ 6 }, 5)]

/-- C3 counterexample: the significance step is handed a region of area 0
and, far from failing with an InvalidRegion error (no error of any kind is
raised on this path in the code), it computes a full aggregate row for
every region: fitted intensity 8, with the zero-area region receiving
expected count 0 and even a MoreThanExpected classification under the
constant-zero score. -/
theorem zero_area_no_failure_cex :
    (exZeroRows.map fun x => x.1.area_m2) = [0, 10 ^ 6]
    ∧ assess pmf0 (5 / 100) exZeroRows =
      [{ geoid10 := 1, areakm2 := 0, count := 3, exppts := 0, ptprob := 0,
         prob_map := Classification.moreThanExpected },
       { geoid10 := 2, areakm2 := 1, count := 5, exppts := 8, ptprob := 0,
         prob_map := Classification.lessThanExpected }] := by
  norm_num [assess, avg_intensity, total_count, total_area, areakm2,
    exZeroRows, pmf0, classify]

/-- C3 amended: the code performs no zero-area check; when the total area
is positive the significance step still computes an aggregate row for
every region, and a zero-area region receives expected count 0 (intensity
times zero area) instead of raising an error. -/
theorem zero_area_processed (pmf : ℕ → ℚ → ℚ) (alpha : ℚ)
    (rows : List (Region × ℕ)) (_h : 0 < total_area rows) :
    (assess pmf alpha rows).length = rows.length
    ∧ ∀ r ∈ assess pmf alpha rows, r.areakm2 = 0 → r.exppts = 0 := by
  refine ⟨by simp [assess], fun r hr ha => ?_⟩
  obtain ⟨x, hx, rfl⟩ := mem_assess_elim hr
  exact mul_eq_zero_of_right _ ha

/-- C3 amended-claim witness: the theorem applied to the concrete table
exZeroRows containing a zero-area region. -/
theorem zero_area_processed_witness :
    0 < total_area exZeroRows ∧
    ((assess pmf0 (5 / 100) exZeroRows).length = exZeroRows.length
    ∧ ∀ r ∈ assess pmf0 (5 / 100) exZeroRows, r.areakm2 = 0 → r.exppts = 0) :=
  ⟨by norm_num [total_area, areakm2, exZeroRows],
   zero_area_processed pmf0 (5 / 100) exZeroRows
     (by norm_num [total_area, areakm2, exZeroRows])⟩

/-- C4: for every region aggregate the score ptprob is the external
scipy.stats.poisson.pmf evaluated at k = observed count and mean = expected
count; scipy's pmf formula is exactly the Poisson point probability (it
coincides with the Poisson probability mass function of the mathematical
library), and it is not a cumulative tail probability (it differs from the
lower cumulative sum and from the upper tail, witnessed at k = 1,
mean = 1). -/
theorem ptprob_is_poisson_pmf (pmf : ℕ → ℚ → ℚ) (alpha : ℚ)
    (rows : List (Region × ℕ)) (_h : 0 < total_area rows) :
    (∀ r ∈ assess pmf alpha rows, r.ptprob = pmf r.count r.exppts)
    ∧ (∀ (mu : NNReal) (k : ℕ),
        scipy_poisson_pmf k (mu : ℝ) = ProbabilityTheory.poissonPMFReal mu k)
    ∧ scipy_poisson_pmf 1 1 ≠ ∑ i ∈ Finset.range 2, scipy_poisson_pmf i 1
    ∧ scipy_poisson_pmf 1 1 ≠ 1 - scipy_poisson_pmf 0 1 := by
  have h1 : scipy_poisson_pmf 1 1 = Real.exp (-1) := by
    simp [scipy_poisson_pmf]
  have h0 : scipy_poisson_pmf 0 1 = Real.exp (-1) := by
    simp [scipy_poisson_pmf]
  refine ⟨fun r hr => ?_, fun mu k => ?_, ?_, ?_⟩
  · obtain ⟨x, hx, rfl⟩ := mem_assess_elim hr
    rfl
  · simp [scipy_poisson_pmf, ProbabilityTheory.poissonPMFReal]
  · rw [Finset.sum_range_succ, Finset.sum_range_one, h0, h1]
    have hpos := Real.exp_pos (-1)
    intro hEq
    nlinarith [hpos]
  · rw [h0, h1]
    have hmul : Real.exp (-1) * Real.exp 1 = 1 := by
      rw [← Real.exp_add]; norm_num
    have hgt := Real.exp_one_gt_d9
    intro hEq
    nlinarith [hmul, hgt, Real.exp_pos 1, Real.exp_pos (-1)]

/-- C4 witness: the theorem applied to the concrete one-region table
exRows1 under the constant-zero stand-in score. -/
theorem ptprob_is_poisson_pmf_witness :
    0 < total_area exRows1 ∧
    ((∀ r ∈ assess pmf0 (5 / 100) exRows1, r.ptprob = pmf0 r.count r.exppts)
    ∧ (∀ (mu : NNReal) (k : ℕ),
        scipy_poisson_pmf k (mu : ℝ) = ProbabilityTheory.poissonPMFReal mu k)
    ∧ scipy_poisson_pmf 1 1 ≠ ∑ i ∈ Finset.range 2, scipy_poisson_pmf i 1
    ∧ scipy_poisson_pmf 1 1 ≠ 1 - scipy_poisson_pmf 0 1) :=
  ⟨by norm_num [total_area, areakm2, exRows1],
   ptprob_is_poisson_pmf pmf0 (5 / 100) exRows1
     (by norm_num [total_area, areakm2, exRows1])⟩

/-- A concrete stand-in for the external pyproj transformation used in the
evaluations below: reprojection moves every point to x = 10, keeping y. -/
def reprojX : ℕ → ℕ → GeoPoint → GeoPoint := fun _ _ p => { x := 10, y := p.y }

/-- A concrete stand-in for the external intersects predicate: every
polygon contains exactly the points with x at least 5. -/
def containsX : ℕ → GeoPoint → Bool := fun _ p => decide ((5 : ℚ) ≤ p.x)

/-- A bus frame in crs 1 holding one stop at the origin with stop_count 4. -/
def exBusMis : PointFrame :=
  { crs := 1, rows := [{ pt := { x := 0, y := 0 }, stop_count := 4 }] }

/-- A census frame in crs 2 (different from the bus frame) with one
region. -/
def exCensusMis : RegionFrame :=
  { crs := 2, rows := [{ geoid10 := 7, geom := 0, area_m2 := 10 ^ 6 }] }

/-- C5 counterexample: the bus and census frames are in different crs, yet
the join neither fails with a CRSMismatch error nor leaves the operands
alone: the bus points are silently reprojected to the census crs (to_crs at
line 55) and the join succeeds on the reprojected point, while the same
join without the silent reprojection would be empty. Empty inputs likewise
produce an empty join result rather than an EmptyInput error. -/
theorem join_crs_mismatch_cex :
    exBusMis.crs ≠ exCensusMis.crs
    ∧ bus_census_join reprojX containsX exBusMis exCensusMis
      = [({ pt := { x := 10, y := 0 }, stop_count := 4 }, 7)]
    ∧ sjoin_inner containsX exBusMis.rows exCensusMis.rows = []
    ∧ bus_census_join reprojX containsX { crs := 1, rows := [] } exCensusMis = []
    ∧ bus_census_join reprojX containsX exBusMis { crs := 2, rows := [] } = [] := by
  refine ⟨by norm_num [exBusMis, exCensusMis], ?_, ?_, ?_, ?_⟩ <;>
    norm_num [bus_census_join, sjoin_inner, to_crs, reprojX, containsX,
      exBusMis, exCensusMis, List.filter, List.flatMap]

/-- C5 amended: the code has no crs comparison and no emptiness check; the
join step always reprojects the point frame to the region frame's crs and
proceeds (the reprojected operand carries the census crs), and an empty
point or region collection yields an empty join result rather than an
error. -/
theorem join_silent_reproject (reproj : ℕ → ℕ → GeoPoint → GeoPoint)
    (contains : ℕ → GeoPoint → Bool) (bus : PointFrame) (census : RegionFrame) :
    bus_census_join reproj contains bus census
      = sjoin_inner contains (to_crs reproj bus census.crs).rows census.rows
    ∧ (to_crs reproj bus census.crs).crs = census.crs
    ∧ (bus.rows = [] → bus_census_join reproj contains bus census = [])
    ∧ (census.rows = [] → bus_census_join reproj contains bus census = []) := by
  refine ⟨rfl, ?_, ?_, ?_⟩
  · unfold to_crs
    split
    · next heq => exact heq
    · rfl
  · intro hb
    unfold bus_census_join sjoin_inner to_crs
    split <;> simp [hb]
  · intro hc
    unfold bus_census_join sjoin_inner
    rw [hc]
    simp

/-- C5 amended-claim witness: the theorem instantiated at the concrete
mismatched-crs frames. -/
theorem join_silent_reproject_witness :
    bus_census_join reprojX containsX exBusMis exCensusMis
      = sjoin_inner containsX (to_crs reprojX exBusMis exCensusMis.crs).rows
          exCensusMis.rows
    ∧ (to_crs reprojX exBusMis exCensusMis.crs).crs = exCensusMis.crs
    ∧ (exBusMis.rows = [] →
        bus_census_join reprojX containsX exBusMis exCensusMis = [])
    ∧ (exCensusMis.rows = [] →
        bus_census_join reprojX containsX exBusMis exCensusMis = []) :=
  join_silent_reproject reprojX containsX exBusMis exCensusMis

theorem merge_counts_fst (census : List Region) (ps : List (ℕ × ℕ)) :
    (merge_counts census ps).map Prod.fst = census := by
  simp [merge_counts, List.map_map, Function.comp_def]

theorem mem_merge_counts {census : List Region} {ps : List (ℕ × ℕ)}
    {rc : Region × ℕ} (h : rc ∈ merge_counts census ps) :
    rc.1 ∈ census
    ∧ rc.2 = ((ps.find? fun r => r.1 == rc.1.geoid10).map Prod.snd).getD 0 := by
  simp only [merge_counts, List.mem_map] at h
  obtain ⟨c, hc, rfl⟩ := h
  exact ⟨hc, rfl⟩

/-- C6: every census region is retained in input order by the left merge
(regions joined by no point included), a region whose geoid10 appears in no
join row receives observed count 0, the area column summed by the
intensity denominator therefore covers every region, and the significance
step produces one aggregate row per region. Stated both for the size-based
pipeline of bus_by_census_tract and the weighted pipeline of get_data. -/
theorem unmatched_region_retained (contains : ℕ → GeoPoint → Bool)
    (pmf : ℕ → ℚ → ℚ) (bus : List PointRow) (census : List Region) :
    ((merge_counts census (point_size (sjoin_inner contains bus census))).map Prod.fst
      = census)
    ∧ (∀ rc ∈ merge_counts census (point_size (sjoin_inner contains bus census)),
        rc.1.geoid10 ∉ (sjoin_inner contains bus census).map Prod.snd → rc.2 = 0)
    ∧ total_area (merge_counts census (point_size (sjoin_inner contains bus census)))
      = (census.map areakm2).sum
    ∧ (assess pmf (5 / 100)
        (merge_counts census (point_size (sjoin_inner contains bus census)))).length
      = census.length
    ∧ ((get_data_counts contains bus census).map Prod.fst = census)
    ∧ (∀ rc ∈ get_data_counts contains bus census,
        rc.1.geoid10 ∉ (sjoin_inner contains bus census).map Prod.snd → rc.2 = 0) := by
  refine ⟨merge_counts_fst _ _, fun rc hrc hno => ?_, ?_, ?_,
    merge_counts_fst _ _, fun rc hrc hno => ?_⟩
  · rw [(mem_merge_counts hrc).2, point_size, find?_groupby_none group_size hno]
    rfl
  · have h2 : total_area (merge_counts census (point_size (sjoin_inner contains bus census)))
        = (((merge_counts census (point_size (sjoin_inner contains bus census))).map
            Prod.fst).map areakm2).sum := by
      rw [List.map_map]
      rfl
    rw [h2, merge_counts_fst]
  · simp [assess, merge_counts]
  · rw [get_data_counts, drop_null_sjoin_left] at hrc
    rw [(mem_merge_counts hrc).2, point_sum, find?_groupby_none group_weight hno]
    rfl

/-- A one-stop bus table used in the concrete evaluations below. -/
def exBusW : List PointRow := [{ pt := { x := 0, y := 0 }, stop_count := 4 }]

/-- A concrete intersects predicate keyed on the polygon id: polygon 10
contains every point, the other polygons contain none. -/
def containsW : ℕ → GeoPoint → Bool := fun g _ => g == 10

/-- A two-region census table whose first region (polygon 10) receives the
stop and whose second region (polygon 11) receives no point. -/
def exCensusW : List Region :=
  [{ geoid10 := 5, geom := 10, area_m2 := 10 ^ 6 },
   { geoid10 := 9, geom := 11, area_m2 := 10 ^ 6 }]

/-- C6 witness: the theorem instantiated at a concrete census table with
one matched and one unmatched region. -/
theorem unmatched_region_retained_witness :
    ((merge_counts exCensusW (point_size (sjoin_inner containsW exBusW exCensusW))).map
        Prod.fst = exCensusW)
    ∧ (∀ rc ∈ merge_counts exCensusW (point_size (sjoin_inner containsW exBusW exCensusW)),
        rc.1.geoid10 ∉ (sjoin_inner containsW exBusW exCensusW).map Prod.snd → rc.2 = 0)
    ∧ total_area (merge_counts exCensusW (point_size (sjoin_inner containsW exBusW exCensusW)))
      = (exCensusW.map areakm2).sum
    ∧ (assess pmf0 (5 / 100)
        (merge_counts exCensusW (point_size (sjoin_inner containsW exBusW exCensusW)))).length
      = exCensusW.length
    ∧ ((get_data_counts containsW exBusW exCensusW).map Prod.fst = exCensusW)
    ∧ (∀ rc ∈ get_data_counts containsW exBusW exCensusW,
        rc.1.geoid10 ∉ (sjoin_inner containsW exBusW exCensusW).map Prod.snd → rc.2 = 0) :=
  unmatched_region_retained containsW pmf0 exBusW exCensusW

theorem filter_geoid_eq (pred : Region → Bool) :
    ∀ (census : List Region), (census.map Region.geoid10).Nodup →
    ∀ {r : Region}, r ∈ census →
      census.filter (fun q => (q.geoid10 == r.geoid10) && pred q)
        = if pred r then [r] else [] := by
  intro census
  induction census with
  | nil => intro _ r hr; cases hr
  | cons c t ih =>
    intro hnd r hr
    rw [List.map_cons, List.nodup_cons] at hnd
    rcases List.mem_cons.mp hr with rfl | hrt
    · have ht : t.filter (fun q => (q.geoid10 == r.geoid10) && pred q) = [] := by
        rw [List.filter_eq_nil_iff]
        intro q hq
        simp only [Bool.and_eq_true, beq_iff_eq, not_and]
        intro hqg _
        exact absurd (hqg ▸ List.mem_map_of_mem Region.geoid10 hq) hnd.1
      rw [List.filter_cons]
      by_cases hp : pred r
      · simp [hp, ht]
      · simp [hp, ht]
    · have hne : (c.geoid10 == r.geoid10) = false := by
        rw [beq_eq_false_iff_ne]
        intro he
        exact hnd.1 (by rw [he]; exact List.mem_map_of_mem Region.geoid10 hrt)
      rw [List.filter_cons]
      simp only [hne, Bool.false_and, Bool.false_eq_true, if_false]
      exact ih hnd.2 hrt

theorem group_weight_sjoin (contains : ℕ → GeoPoint → Bool) :
    ∀ (bus : List PointRow) (census : List Region),
      (census.map Region.geoid10).Nodup → ∀ {r : Region}, r ∈ census →
      group_weight (sjoin_inner contains bus census) r.geoid10
        = ((bus.filter fun p => contains r.geom p.pt).map
            (fun p => p.stop_count)).sum := by
  intro bus
  induction bus with
  | nil => intro census _ r _; rfl
  | cons p t ih =>
    intro census hnd r hr
    have iht := ih census hnd hr
    rw [group_weight] at iht
    have hstep : sjoin_inner contains (p :: t) census
        = ((census.filter fun q => contains q.geom p.pt).map fun q => (p, q.geoid10))
          ++ sjoin_inner contains t census := by
      simp only [sjoin_inner, List.flatMap_cons]
    have hhead : ((((census.filter fun q => contains q.geom p.pt).map fun q =>
          (p, q.geoid10)).filter (fun x => x.2 == r.geoid10)).map
          fun x => x.1.stop_count).sum
        = if contains r.geom p.pt then p.stop_count else 0 := by
      have h1 : (((census.filter fun q => contains q.geom p.pt).map fun q =>
            (p, q.geoid10)).filter (fun x => x.2 == r.geoid10))
          = ((census.filter fun q => contains q.geom p.pt).filter
              (fun q => q.geoid10 == r.geoid10)).map fun q => (p, q.geoid10) := by
        rw [List.filter_map]
        rfl
      rw [h1, List.filter_filter,
        filter_geoid_eq (fun q => contains q.geom p.pt) census hnd hr]
      by_cases hc : contains r.geom p.pt
      · simp [hc]
      · simp [hc]
    rw [group_weight, hstep, List.filter_append, List.map_append, List.sum_append,
      hhead, iht, List.filter_cons]
    by_cases hc : contains r.geom p.pt
    · simp [hc]
    · simp [hc]

/-- C7: in the weighted aggregation of get_data (left spatial join followed
by a stop_count sum grouped by geoid10), each region's aggregated count is
the sum of the stop_count weights of exactly the points the region
contains; since the equality holds for every region containing a point, a
point assigned to several regions contributes its full weight to each of
them, with no splitting. -/
theorem observed_count_sum_weights (contains : ℕ → GeoPoint → Bool)
    (bus : List PointRow) (census : List Region)
    (hnd : (census.map Region.geoid10).Nodup) (r : Region) (hr : r ∈ census) :
    group_weight (drop_null (sjoin_left contains bus census)) r.geoid10
      = ((bus.filter fun p => contains r.geom p.pt).map
          fun p => p.stop_count).sum := by
  rw [drop_null_sjoin_left]
  exact group_weight_sjoin contains bus census hnd hr

/-- A two-region census table in which both regions carry the same polygon
(id 10), so the single stop of exBusW is assigned to both. -/
def exCensusO : List Region :=
  [{ geoid10 := 5, geom := 10, area_m2 := 1000000 },
   { geoid10 := 9, geom := 10, area_m2 := 1000000 }]

/-- C7 witness: the theorem applied to each of the two overlapping regions
of exCensusO; the stop with weight 4 is assigned to both regions and each
aggregated count carries the full weight 4. -/
theorem observed_count_sum_weights_witness :
    (exCensusO.map Region.geoid10).Nodup
    ∧ (⟨5, 10, 1000000⟩ : Region) ∈ exCensusO
    ∧ (⟨9, 10, 1000000⟩ : Region) ∈ exCensusO
    ∧ group_weight (drop_null (sjoin_left containsW exBusW exCensusO)) 5
      = ((exBusW.filter fun p => containsW 10 p.pt).map fun p => p.stop_count).sum
    ∧ group_weight (drop_null (sjoin_left containsW exBusW exCensusO)) 9
      = ((exBusW.filter fun p => containsW 10 p.pt).map fun p => p.stop_count).sum :=
  ⟨by decide, by decide, by decide,
   observed_count_sum_weights containsW exBusW exCensusO (by decide)
     ⟨5, 10, 1000000⟩ (by decide),
   observed_count_sum_weights containsW exBusW exCensusO (by decide)
     ⟨9, 10, 1000000⟩ (by decide)⟩

/-- C8: for either clustering variant, the printed cluster count equals the
number of distinct labels excluding the noise label -1, and the printed
noise count equals the number of points labeled -1. The subtraction of one
exactly when the noise label occurs makes the reported count the
cardinality of the distinct labels with the noise label erased. -/
theorem cluster_noise_counts (labels : List ℤ) (df : ClusterFrame) :
    (dbscan_run labels df).2.1 = (labels.toFinset.erase (-1)).card
    ∧ (dbscan_run labels df).2.2 = labels.count (-1)
    ∧ (hdbscan_run labels df).2.1 = (labels.toFinset.erase (-1)).card
    ∧ (hdbscan_run labels df).2.2 = labels.count (-1) := by
  have hq : labels.toFinset.card - (if (-1 : ℤ) ∈ labels then 1 else 0)
      = (labels.toFinset.erase (-1)).card := by
    by_cases hm : (-1 : ℤ) ∈ labels
    · rw [if_pos hm, Finset.card_erase_of_mem (List.mem_toFinset.mpr hm)]
    · rw [if_neg hm,
        Finset.erase_eq_of_not_mem (fun hc => hm (List.mem_toFinset.mp hc)),
        Nat.sub_zero]
  exact ⟨hq, rfl, hq, rfl⟩

/-- A concrete bus point frame with no cluster columns yet. -/
def exFrame : ClusterFrame :=
  { coords := [{ x := 0, y := 0 }], db_cluster := none, hdb_cluster := none }

/-- A concrete prob_census_df frame with no derived columns yet. -/
def exService : ServiceFrame := { rows := exRows1, derived := none }

/-- C9 counterexample: each of dbscan, hdbscan and plot_service_density
returns an input frame that differs from the frame that was passed in — the
functions write their derived column into the input structure in place, so
the inputs are not left unchanged. -/
theorem mutation_cex :
    (dbscan_run [0] exFrame).1 ≠ exFrame
    ∧ (hdbscan_run [0] exFrame).1 ≠ exFrame
    ∧ plot_service_density_run pmf0 exService ≠ exService := by
  refine ⟨fun h => ?_, fun h => ?_, fun h => ?_⟩
  · exact Option.noConfusion (congrArg ClusterFrame.db_cluster h)
  · exact Option.noConfusion (congrArg ClusterFrame.hdb_cluster h)
  · exact Option.noConfusion (congrArg ServiceFrame.derived h)

/-- C9 amended: dbscan, hdbscan and plot_service_density write their
derived column into the input frame in place (db_cluster, hdb_cluster, and
the area/exppts/ptprob/prob_map block respectively), so the input structure
is mutated; everything else about the inputs is untouched — the
coordinates, the other variant's cluster column and the merged rows are
unchanged — and the written values are a pure function of the inputs. -/
theorem mutation_frame (labels : List ℤ) (df : ClusterFrame)
    (pmf : ℕ → ℚ → ℚ) (f : ServiceFrame) :
    (dbscan_run labels df).1.coords = df.coords
    ∧ (dbscan_run labels df).1.hdb_cluster = df.hdb_cluster
    ∧ (dbscan_run labels df).1.db_cluster = some labels
    ∧ (hdbscan_run labels df).1.coords = df.coords
    ∧ (hdbscan_run labels df).1.db_cluster = df.db_cluster
    ∧ (hdbscan_run labels df).1.hdb_cluster = some labels
    ∧ (plot_service_density_run pmf f).rows = f.rows
    ∧ (plot_service_density_run pmf f).derived
      = some (assess pmf (1 / 100) f.rows) :=
  ⟨rfl, rfl, rfl, rfl, rfl, rfl, rfl, rfl⟩

theorem mem_sjoin_keys {contains : ℕ → GeoPoint → Bool} {bus : List PointRow}
    {census : List Region} {g : ℕ} :
    g ∈ (sjoin_inner contains bus census).map Prod.snd ↔
      ∃ r ∈ census, r.geoid10 = g ∧ ∃ p ∈ bus, contains r.geom p.pt = true := by
  simp only [sjoin_inner, List.map_flatMap, List.mem_flatMap, List.map_map,
    List.mem_map, List.mem_filter, Function.comp_def]
  constructor
  · rintro ⟨p, hp, r, ⟨hrc, hcont⟩, rfl⟩
    exact ⟨r, hrc, rfl, p, hp, hcont⟩
  · rintro ⟨r, hrc, rfl, p, hp, hcont⟩
    exact ⟨p, hp, r, ⟨hrc, hcont⟩, rfl⟩

theorem groupKeys_perm_census (contains : ℕ → GeoPoint → Bool)
    (bus : List PointRow) (census : List Region)
    (hnd : (census.map Region.geoid10).Nodup)
    (hmatch : ∀ r ∈ census, ∃ p ∈ bus, contains r.geom p.pt) :
    List.Perm (groupKeys (sjoin_inner contains bus census))
      (census.map Region.geoid10) := by
  rw [List.perm_ext_iff_of_nodup (nodup_groupKeys _) hnd]
  intro g
  rw [mem_groupKeys, mem_sjoin_keys]
  constructor
  · rintro ⟨r, hrc, rfl, _⟩
    exact List.mem_map_of_mem Region.geoid10 hrc
  · intro hg
    obtain ⟨r, hrc, rfl⟩ := List.mem_map.mp hg
    obtain ⟨p, hp, hcont⟩ := hmatch r hrc
    exact ⟨r, hrc, rfl, p, hp, hcont⟩

/-- C10 amended: in the per-region service GeoDataFrame of
plot_nuanced_service_densities / get_census_bus_data, the geometry of
output row i is the geometry of census row i (pandas aligns the geometry
series to the fresh 0..k-1 index of the groupby result positionally),
while the count of row i belongs to the i-th geoid10 in the groupby's
sorted order; whenever every census region receives a point, the census
rows are not sorted by geoid10, and the region geometries are pairwise
distinct, some output row's geometry is not the geometry of the region
whose count that row carries. -/
theorem gdf_misalignment (contains : ℕ → GeoPoint → Bool) (bus : List PointRow)
    (census : List Region)
    (hnd : (census.map Region.geoid10).Nodup)
    (hgeom : (census.map Region.geom).Nodup)
    (hmatch : ∀ r ∈ census, ∃ p ∈ bus, contains r.geom p.pt)
    (hunsorted : ¬ (census.map Region.geoid10).Sorted (· ≤ ·)) :
    (∀ (i : ℕ) (hi : i < (point_sum_gdf contains bus census).length)
        (hc : i < census.length),
      ((point_sum_gdf contains bus census).get ⟨i, hi⟩).2.2
        = (census.get ⟨i, hc⟩).geom)
    ∧ ∃ row ∈ point_sum_gdf contains bus census, ∀ r ∈ census,
        r.geoid10 = row.1 → r.geom ≠ row.2.2 := by
  have hperm := groupKeys_perm_census contains bus census hnd hmatch
  have hKlen : (groupKeys (sjoin_inner contains bus census)).length
      = census.length := by
    rw [hperm.length_eq, List.length_map]
  have hPSlen : (point_sum (sjoin_inner contains bus census)).length
      = census.length := by
    rw [point_sum, List.length_map, hKlen]
  have hGlen : (point_sum_gdf contains bus census).length = census.length := by
    rw [point_sum_gdf, List.length_zipWith, hPSlen, Nat.min_self]
  have hpos : ∀ (i : ℕ) (hi : i < (point_sum_gdf contains bus census).length)
      (hc : i < census.length),
      ((point_sum_gdf contains bus census).get ⟨i, hi⟩).2.2
        = (census.get ⟨i, hc⟩).geom := by
    intro i hi hc
    rw [List.get_eq_getElem, List.get_eq_getElem]
    simp only [point_sum_gdf]
    rw [List.getElem_zipWith]
  refine ⟨hpos, ?_⟩
  by_contra hno
  push_neg at hno
  apply hunsorted
  have hkey : ∀ (i : ℕ) (hc : i < census.length),
      (census.get ⟨i, hc⟩).geoid10
        = (groupKeys (sjoin_inner contains bus census)).get
            ⟨i, by rw [hKlen]; exact hc⟩ := by
    intro i hc
    have hiG : i < (point_sum_gdf contains bus census).length := by
      rw [hGlen]; exact hc
    obtain ⟨r, hrc, hgid, hgeo⟩ :=
      hno ((point_sum_gdf contains bus census).get ⟨i, hiG⟩)
        (List.get_mem _ _ _)
    have hrow1 : ((point_sum_gdf contains bus census).get ⟨i, hiG⟩).1
        = (groupKeys (sjoin_inner contains bus census)).get
            ⟨i, by rw [hKlen]; exact hc⟩ := by
      rw [List.get_eq_getElem, List.get_eq_getElem]
      simp only [point_sum_gdf]
      rw [List.getElem_zipWith]
      show (point_sum (sjoin_inner contains bus census))[i].1 = _
      simp only [point_sum]
      rw [List.getElem_map]
    have hrgeo : r.geom = (census.get ⟨i, hc⟩).geom := by
      rw [hgeo, hpos i hiG hc]
    have hreq : r = census.get ⟨i, hc⟩ :=
      List.inj_on_of_nodup_map hgeom hrc (List.get_mem _ _ _) hrgeo
    rw [← hreq, hgid, hrow1]
  have hlist : census.map Region.geoid10
      = groupKeys (sjoin_inner contains bus census) := by
    apply List.ext_getElem
    · rw [List.length_map, hKlen]
    · intro i h1 h2
      rw [List.getElem_map]
      have hc : i < census.length := by
        rw [List.length_map] at h1; exact h1
      have := hkey i hc
      rw [List.get_eq_getElem, List.get_eq_getElem] at this
      exact this
  rw [hlist]
  exact sorted_groupKeys _

/-- An unsorted census table (geoids 2, 1) whose two regions carry the same
polygon value 5. -/
def exCensusA : List Region :=
  [{ geoid10 := 2, geom := 5, area_m2 := 1000000 },
   { geoid10 := 1, geom := 5, area_m2 := 1000000 }]

/-- A sorted census table (geoids 1, 2) whose second region carries a
polygon (id 6) containing no point. -/
def exCensusB : List Region :=
  [{ geoid10 := 1, geom := 5, area_m2 := 1000000 },
   { geoid10 := 2, geom := 6, area_m2 := 1000000 }]

/-- A concrete intersects predicate: polygon 5 contains every point, every
other polygon contains none. -/
def containsFive : ℕ → GeoPoint → Bool := fun g _ => g == 5

/-- C10 counterexample: two concrete inputs on which the claim as stated
fails. Input exCensusA is not sorted by geoid10 with every region matched,
yet every output row's geometry is the geometry of the region whose count
it carries, because the two regions share one polygon value. Input
exCensusB is sorted but has an unmatched region — also an input that is not
(sorted with every region matched) — and again every output row is
correctly aligned, because the matched regions form a prefix of the census
table in sorted order. -/
theorem gdf_alignment_cex :
    (¬ (exCensusA.map Region.geoid10).Sorted (· ≤ ·))
    ∧ (∀ r ∈ exCensusA, ∃ p ∈ exBusW, containsFive r.geom p.pt)
    ∧ (∀ row ∈ point_sum_gdf containsFive exBusW exCensusA,
        ∃ r ∈ exCensusA, r.geoid10 = row.1 ∧ r.geom = row.2.2)
    ∧ ((exCensusB.map Region.geoid10).Sorted (· ≤ ·))
    ∧ (∃ r ∈ exCensusB, ∀ p ∈ exBusW, ¬ containsFive r.geom p.pt)
    ∧ (∀ row ∈ point_sum_gdf containsFive exBusW exCensusB,
        ∃ r ∈ exCensusB, r.geoid10 = row.1 ∧ r.geom = row.2.2) := by
  decide

/-- An unsorted census table (geoids 9, 5) with pairwise distinct polygon
values, both matched by the all-containing predicate below. -/
def exCensusU : List Region :=
  [{ geoid10 := 9, geom := 20, area_m2 := 1000000 },
   { geoid10 := 5, geom := 21, area_m2 := 1000000 }]

/-- A concrete intersects predicate under which every polygon contains
every point. -/
def containsAll : ℕ → GeoPoint → Bool := fun _ _ => true

/-- C10 amended-claim witness: the theorem applied to the concrete
unsorted, fully matched census table exCensusU with distinct polygon
values; some output row carries a count whose region has a different
geometry. -/
theorem gdf_misalignment_witness :
    ((exCensusU.map Region.geoid10).Nodup)
    ∧ ((exCensusU.map Region.geom).Nodup)
    ∧ (∀ r ∈ exCensusU, ∃ p ∈ exBusW, containsAll r.geom p.pt)
    ∧ (¬ (exCensusU.map Region.geoid10).Sorted (· ≤ ·))
    ∧ ((∀ (i : ℕ) (hi : i < (point_sum_gdf containsAll exBusW exCensusU).length)
          (hc : i < exCensusU.length),
        ((point_sum_gdf containsAll exBusW exCensusU).get ⟨i, hi⟩).2.2
          = (exCensusU.get ⟨i, hc⟩).geom)
      ∧ ∃ row ∈ point_sum_gdf containsAll exBusW exCensusU, ∀ r ∈ exCensusU,
          r.geoid10 = row.1 → r.geom ≠ row.2.2) :=
  ⟨by decide, by decide, by decide, by decide,
   gdf_misalignment containsAll exBusW exCensusU (by decide) (by decide)
     (by decide) (by decide)⟩
